import Mathlib

/-
  Verification development for the deej session directory and routing engine
  (github.com/nik9play/deej).

  Shallow embedding conventions:
  * Go float32/float64 arithmetic is modelled by exact rationals; every
    comparison proved here holds with a margin far wider than any float
    rounding error of the source values involved.
  * Go maps are modelled by association lists (key order is the insertion
    order; only lookup / insert / delete are used by the embedded code).
  * Go interface values that may be nil are modelled by Option; a method
    call on a nil interface is modelled as an Except.error (runtime panic).
-/

namespace Deej

/-! ## Noise filter: pkg/deej/util/util.go -/

/-- Embeds util.almostEquals: absolute difference below 0.000001. -/
def almostEquals (a b : ℚ) : Bool := |a - b| < 1 / 1000000

/-- Embeds the switch on noiseReductionLevel inside util.SignificantlyDifferent:
"high" maps to 0.035, "low" to 0.015, and every other string (there is no
dedicated "none" case in the source) falls through to the default 0.025. -/
def significantDifferenceThreshold (noiseReductionLevel : String) : ℚ :=
  if noiseReductionLevel = "high" then 35 / 1000
  else if noiseReductionLevel = "low" then 15 / 1000
  else 25 / 1000

/-- Embeds util.SignificantlyDifferent: true when the absolute difference
reaches the level's threshold, or when the new value snaps to an edge
(almost equal to 1.0 while old is not exactly 1.0, or almost equal to 0.0
while old is not exactly 0.0). -/
def SignificantlyDifferent (old new : ℚ) (noiseReductionLevel : String) : Bool :=
  if significantDifferenceThreshold noiseReductionLevel ≤ |old - new| then
    true
  else if (almostEquals new 1 && !(old == 1)) || (almostEquals new 0 && !(old == 0)) then
    true
  else
    false

/-- Embeds util.NormalizeScalar: floor to two decimal digits. -/
def NormalizeScalar (v : ℚ) : ℚ := (⌊v * 100⌋ : ℚ) / 100

theorem significantDifferenceThreshold_le_high (lvl : String) :
    significantDifferenceThreshold lvl ≤ significantDifferenceThreshold "high" := by
  have hh : significantDifferenceThreshold "high" = 35 / 1000 := rfl
  rw [hh]
  unfold significantDifferenceThreshold
  split
  · norm_num
  · split
    · norm_num
    · norm_num

theorem significantDifferenceThreshold_pos (lvl : String) :
    0 < significantDifferenceThreshold lvl := by
  unfold significantDifferenceThreshold
  split
  · norm_num
  · split
    · norm_num
    · norm_num

/-- The filter never fires when old and new are exactly equal, provided the
value can only be almost-equal to an edge by being that edge: the difference
is zero, and the edge branch needs old to differ from the edge that new is
almost equal to. -/
theorem significantlyDifferent_refl (q : ℚ) (lvl : String)
    (h1 : almostEquals q 1 = true → q = 1)
    (h0 : almostEquals q 0 = true → q = 0) :
    SignificantlyDifferent q q lvl = false := by
  unfold SignificantlyDifferent
  have hth : ¬(significantDifferenceThreshold lvl ≤ |q - q|) := by
    rw [sub_self, abs_zero]
    exact not_le.mpr (significantDifferenceThreshold_pos lvl)
  rw [if_neg hth]
  have hcond : ((almostEquals q 1 && !(q == 1)) || (almostEquals q 0 && !(q == 0))) = false := by
    cases hA : almostEquals q 1 with
    | false =>
      cases hB : almostEquals q 0 with
      | false => simp
      | true =>
        have hq := h0 hB
        simp [hq]
    | true =>
      have hq := h1 hA
      cases hB : almostEquals q 0 with
      | false => simp [hq]
      | true =>
        have hq0 := h0 hB
        rw [hq] at hq0
        norm_num at hq0
  rw [hcond]
  simp

/-- Specialization to hundredth-sized values (the decoder stores floored
percent values, multiples of 0.01): such a value is within 0.000001 of an
edge only by being that edge. -/
theorem significantlyDifferent_refl_cent (q : ℚ) (k : ℤ) (hk : q = (k : ℚ) / 100)
    (lvl : String) : SignificantlyDifferent q q lvl = false := by
  subst hk
  apply significantlyDifferent_refl
  · intro h
    unfold almostEquals at h
    rw [decide_eq_true_eq] at h
    by_contra hne
    have hki : k ≠ 100 := by
      intro hh
      apply hne
      rw [hh]
      norm_num
    have hge : (1:ℚ)/100 ≤ |(k:ℚ)/100 - 1| := by
      rw [show ((k:ℚ)/100 - 1) = ((k - 100 : ℤ) : ℚ)/100 by push_cast; ring]
      rw [abs_div, abs_of_pos (by norm_num : (0:ℚ) < 100)]
      have h1 : (1:ℚ) ≤ |((k - 100 : ℤ) : ℚ)| := by
        rw [← Int.cast_abs]
        exact_mod_cast Int.one_le_abs (by omega)
      linarith
    linarith
  · intro h
    unfold almostEquals at h
    rw [decide_eq_true_eq] at h
    by_contra hne
    have hki : k ≠ 0 := by
      intro hh
      apply hne
      rw [hh]
      norm_num
    have hge : (1:ℚ)/100 ≤ |(k:ℚ)/100 - 0| := by
      rw [show ((k:ℚ)/100 - 0) = ((k - 0 : ℤ) : ℚ)/100 by push_cast; ring]
      rw [abs_div, abs_of_pos (by norm_num : (0:ℚ) < 100)]
      have h1 : (1:ℚ) ≤ |((k - 0 : ℤ) : ℚ)| := by
        rw [← Int.cast_abs]
        exact_mod_cast Int.one_le_abs (by omega)
      linarith
    linarith

/-- The filter always fires against the -1.0 sentinel: the distance from
-1.0 to any nonnegative percent value is at least 1, above every
threshold. -/
theorem significantlyDifferent_sentinel (ns : ℚ) (lvl : String) (hn : 0 ≤ ns) :
    SignificantlyDifferent (-1 : ℚ) ns lvl = true := by
  unfold SignificantlyDifferent
  have h1 : significantDifferenceThreshold lvl ≤ |(-1 : ℚ) - ns| := by
    have habs : |(-1 : ℚ) - ns| = 1 + ns := by
      rw [abs_of_nonpos (by linarith)]
      ring
    rw [habs]
    have h2 := significantDifferenceThreshold_le_high lvl
    have hh : significantDifferenceThreshold "high" = 35 / 1000 := rfl
    rw [hh] at h2
    linarith
  rw [if_pos h1]

theorem significantlyDifferent_high_mono (old new : ℚ) (lvl : String)
    (h : SignificantlyDifferent old new "high" = true) :
    SignificantlyDifferent old new lvl = true := by
  unfold SignificantlyDifferent at h ⊢
  by_cases hth : significantDifferenceThreshold "high" ≤ |old - new|
  · have : significantDifferenceThreshold lvl ≤ |old - new| :=
      le_trans (significantDifferenceThreshold_le_high lvl) hth
    simp [this]
  · simp only [hth, if_false] at h
    by_cases hlvl : significantDifferenceThreshold lvl ≤ |old - new|
    · simp [hlvl]
    · simp only [hlvl, if_false]
      by_cases hedge : (almostEquals new 1 && !(old == 1)) || (almostEquals new 0 && !(old == 0)) = true
      · simp_all
      · simp_all

/-! ## Frame decoder: pkg/deej/serial.go

Lines are modelled as lists of characters. The helper functions below embed
the regexp match against expectedLinePattern, strings.TrimSuffix,
strings.Split and strconv.Atoi, each as a structurally recursive function. -/

/-- Splits a character list on a separator character; model of Go
strings.Split with a one-character separator. The result is always a
nonempty list of (possibly empty) groups. -/
def splitOnChar (sep : Char) : List Char → List (List Char)
  | [] => [[]]
  | c :: cs =>
    if c = sep then [] :: splitOnChar sep cs
    else
      match splitOnChar sep cs with
      | [] => [[c]]
      | g :: gs => (c :: g) :: gs

/-- A decimal digit character (the regexp class backslash-d). -/
def isDigitChar (c : Char) : Bool := 48 ≤ c.toNat && c.toNat ≤ 57

/-- A digit group of the line grammar: one to four decimal digit characters. -/
def isDigitGroup (g : List Char) : Bool :=
  1 ≤ g.length && g.length ≤ 4 && g.all isDigitChar

/-- Embeds the match of expectedLinePattern, the anchored regexp of one or
more pipe-separated groups of one to four digits followed by CR LF. -/
def expectedLineMatch (line : List Char) : Bool :=
  match line.reverse with
  | '\n' :: '\r' :: rest => (splitOnChar '|' rest.reverse).all isDigitGroup
  | _ => false

/-- Embeds strings.TrimSuffix for the CR LF suffix. -/
def trimCRLF (line : List Char) : List Char :=
  match line.reverse with
  | '\n' :: '\r' :: rest => rest.reverse
  | _ => line

/-- Embeds strconv.Atoi on a digit group (the decoder ignores the error
return; the grammar guarantees pure digit input). -/
def atoi (g : List Char) : ℤ :=
  g.foldl (fun n c => n * 10 + ((c.toNat : ℤ) - 48)) 0

/-- SliderMoveEvent from serial.go: a slider index and a volume scalar. -/
structure SliderMoveEvent where
  SliderID : ℕ
  PercentValue : ℚ
deriving Repr, DecidableEq

/-- The serial configuration values the decoder reads from deej.config. -/
structure SerialConfig where
  InvertSliders : Bool
  NoiseReductionLevel : String
deriving Repr, DecidableEq

/-- The decoder state mutated by SerialIO.handleLine: the previously seen
slider count and the per-slider last accepted normalized percent values. -/
structure SerialState where
  lastKnownNumSliders : ℕ
  currentSliderPercentValues : List ℚ
deriving Repr, DecidableEq

/-- Embeds the per-value loop of SerialIO.handleLine. Walks the split
groups with their slider index, carrying the stored percent values; returns
none when the first-token sanity check rejects the line (the Go code
returns early, discarding the whole line), otherwise the updated stored
values and the move events in slider order. Each reading is normalized to
a floored percent scalar, optionally inverted, compared against the stored
scalar by the noise filter, and stored when accepted. -/
def decodeValues (cfg : SerialConfig) : ℕ → List ℚ → List (List Char) →
    Option (List ℚ × List SliderMoveEvent)
  | _, vals, [] => some (vals, [])
  | sliderIdx, vals, stringValue :: rest =>
    let number : ℤ := atoi stringValue
    if sliderIdx = 0 ∧ 1023 < number then
      none
    else
      let dirtyFloat : ℚ := (number : ℚ) / 1023
      let normalizedScalar : ℚ := NormalizeScalar dirtyFloat
      let normalizedScalar : ℚ :=
        if cfg.InvertSliders then 1 - normalizedScalar else normalizedScalar
      if SignificantlyDifferent (vals.getD sliderIdx 0) normalizedScalar
          cfg.NoiseReductionLevel then
        match decodeValues cfg (sliderIdx + 1) (vals.set sliderIdx normalizedScalar) rest with
        | none => none
        | some (finalVals, events) =>
          some (finalVals, ⟨sliderIdx, normalizedScalar⟩ :: events)
      else
        decodeValues cfg (sliderIdx + 1) vals rest

/-- Embeds SerialIO.handleLine: reject lines failing the grammar, trim the
CR LF suffix, split on pipes, reset the stored percent values to the
sentinel -1.0 when the slider count changed, then run the per-value loop. -/
def handleLine (cfg : SerialConfig) (sio : SerialState) (line : List Char) :
    SerialState × List SliderMoveEvent :=
  if expectedLineMatch line then
    let splitLine := splitOnChar '|' (trimCRLF line)
    let numSliders := splitLine.length
    let sio1 :=
      if numSliders ≠ sio.lastKnownNumSliders then
        { lastKnownNumSliders := numSliders,
          currentSliderPercentValues := List.replicate numSliders (-1 : ℚ) }
      else sio
    match decodeValues cfg 0 sio1.currentSliderPercentValues splitLine with
    | none => (sio1, [])
    | some (finalVals, moveEvents) =>
      ({ sio1 with currentSliderPercentValues := finalVals }, moveEvents)
  else
    (sio, [])

theorem getD_set_ne {α : Type} (a d : α) : ∀ (l : List α) (i j : ℕ), i ≠ j →
    (l.set i a).getD j d = l.getD j d := by
  intro l
  induction l with
  | nil => intro i j _; rfl
  | cons x xs ih =>
    intro i j hij
    cases i with
    | zero =>
      cases j with
      | zero => exact absurd rfl hij
      | succ j => simp [List.getD_cons_succ]
    | succ i =>
      cases j with
      | zero => simp [List.getD_cons_zero]
      | succ j => simpa [List.getD_cons_succ] using ih i j (by omega)

theorem getD_set_self {α : Type} (a d : α) : ∀ (l : List α) (i : ℕ), i < l.length →
    (l.set i a).getD i d = a := by
  intro l
  induction l with
  | nil => intro i h; simp at h
  | cons x xs ih =>
    intro i h
    cases i with
    | zero => simp [List.getD_cons_zero]
    | succ i => simpa [List.getD_cons_succ] using ih i (by simpa using h)

/-- The stored percent value written by the decode loop for a raw reading:
a floored percent scalar, optionally inverted, always a multiple of 0.01. -/
theorem normalizedScalar_cent (cfg : SerialConfig) (n : ℤ) :
    ∃ k : ℤ, (if cfg.InvertSliders then 1 - NormalizeScalar ((n : ℚ) / 1023)
      else NormalizeScalar ((n : ℚ) / 1023)) = (k : ℚ) / 100 := by
  by_cases hinv : cfg.InvertSliders = true
  · rw [if_pos hinv]
    refine ⟨100 - ⌊(n : ℚ) / 1023 * 100⌋, ?_⟩
    unfold NormalizeScalar
    push_cast
    ring
  · rw [if_neg hinv]
    exact ⟨⌊(n : ℚ) / 1023 * 100⌋, rfl⟩

/-- For readings inside the raw range, the normalized (optionally inverted)
percent value is nonnegative. -/
theorem normalizedScalar_nonneg (cfg : SerialConfig) (n : ℤ) (h0 : 0 ≤ n)
    (h1 : n ≤ 1023) :
    0 ≤ (if cfg.InvertSliders then 1 - NormalizeScalar ((n : ℚ) / 1023)
      else NormalizeScalar ((n : ℚ) / 1023)) := by
  have hv0 : (0 : ℚ) ≤ (n : ℚ) / 1023 := by
    apply div_nonneg
    · exact_mod_cast h0
    · norm_num
  have hv1 : (n : ℚ) / 1023 ≤ 1 := by
    rw [div_le_one (by norm_num : (0:ℚ) < 1023)]
    exact_mod_cast h1
  by_cases hinv : cfg.InvertSliders = true
  · rw [if_pos hinv]
    unfold NormalizeScalar
    have hfle : (⌊(n : ℚ) / 1023 * 100⌋ : ℚ) ≤ (n : ℚ) / 1023 * 100 := Int.floor_le _
    have hx : (n : ℚ) / 1023 * 100 ≤ 100 := by nlinarith
    linarith
  · rw [if_neg hinv]
    unfold NormalizeScalar
    have hf : (0 : ℤ) ≤ ⌊(n : ℚ) / 1023 * 100⌋ := Int.floor_nonneg.mpr (by nlinarith)
    have hfq : (0 : ℚ) ≤ (⌊(n : ℚ) / 1023 * 100⌋ : ℚ) := by exact_mod_cast hf
    linarith

/-- Positions below the running index are never touched by the decode loop. -/
theorem decodeValues_untouched (cfg : SerialConfig) :
    ∀ (l : List (List Char)) (idx : ℕ) (vals vals' : List ℚ)
      (evs : List SliderMoveEvent),
      decodeValues cfg idx vals l = some (vals', evs) →
      ∀ j, j < idx → vals'.getD j 0 = vals.getD j 0 := by
  intro l
  induction l with
  | nil =>
    intro idx vals vals' evs h j hj
    simp only [decodeValues, Option.some.injEq, Prod.mk.injEq] at h
    rw [← h.1]
  | cons g rest ih =>
    intro idx vals vals' evs h j hj
    simp only [decodeValues] at h
    by_cases h0 : idx = 0 ∧ 1023 < atoi g
    · simp [h0] at h
    · rw [if_neg h0] at h
      by_cases hsd : SignificantlyDifferent (vals.getD idx 0)
          (if cfg.InvertSliders then 1 - NormalizeScalar ((atoi g : ℚ) / 1023)
            else NormalizeScalar ((atoi g : ℚ) / 1023))
          cfg.NoiseReductionLevel = true
      · rw [if_pos hsd] at h
        cases hrec : decodeValues cfg (idx + 1)
            (vals.set idx (if cfg.InvertSliders then
              1 - NormalizeScalar ((atoi g : ℚ) / 1023)
              else NormalizeScalar ((atoi g : ℚ) / 1023))) rest with
        | none => rw [hrec] at h; exact absurd h (by simp)
        | some p =>
          rw [hrec] at h
          obtain ⟨finalVals, events⟩ := p
          simp only [Option.some.injEq, Prod.mk.injEq] at h
          have hv : vals' = finalVals := h.1.symm
          subst hv
          have := ih (idx + 1) _ vals' events hrec j (by omega)
          rw [this, getD_set_ne _ _ _ _ _ (by omega)]
      · rw [if_neg (by simpa using hsd)] at h
        exact ih (idx + 1) vals vals' evs h j (by omega)

/-- Re-running the decode loop on the stored values it produced yields the
same stored values and no events: every stored value either was just set to
the incoming normalized scalar, or already failed the significance test
against it. -/
theorem decodeValues_stable (cfg : SerialConfig) :
    ∀ (l : List (List Char)) (idx : ℕ) (vals vals' : List ℚ)
      (evs : List SliderMoveEvent),
      vals.length = idx + l.length →
      decodeValues cfg idx vals l = some (vals', evs) →
      decodeValues cfg idx vals' l = some (vals', []) := by
  intro l
  induction l with
  | nil =>
    intro idx vals vals' evs _ h
    simp only [decodeValues, Option.some.injEq, Prod.mk.injEq] at h
    rw [← h.1]
    simp [decodeValues]
  | cons g rest ih =>
    intro idx vals vals' evs hlen h
    simp only [decodeValues] at h ⊢
    by_cases h0 : idx = 0 ∧ 1023 < atoi g
    · simp [h0] at h
    · rw [if_neg h0] at h ⊢
      have hidx : idx < vals.length := by
        simp only [List.length_cons] at hlen
        omega
      by_cases hsd : SignificantlyDifferent (vals.getD idx 0)
          (if cfg.InvertSliders then 1 - NormalizeScalar ((atoi g : ℚ) / 1023)
            else NormalizeScalar ((atoi g : ℚ) / 1023))
          cfg.NoiseReductionLevel = true
      · rw [if_pos hsd] at h
        cases hrec : decodeValues cfg (idx + 1)
            (vals.set idx (if cfg.InvertSliders then
              1 - NormalizeScalar ((atoi g : ℚ) / 1023)
              else NormalizeScalar ((atoi g : ℚ) / 1023))) rest with
        | none => rw [hrec] at h; exact absurd h (by simp)
        | some p =>
          obtain ⟨finalVals, events⟩ := p
          rw [hrec] at h
          simp only [Option.some.injEq, Prod.mk.injEq] at h
          have hv : vals' = finalVals := h.1.symm
          subst hv
          have huntouched := decodeValues_untouched cfg rest (idx + 1) _ vals' events
            hrec idx (by omega)
          have hread : vals'.getD idx 0
              = (if cfg.InvertSliders then 1 - NormalizeScalar ((atoi g : ℚ) / 1023)
                  else NormalizeScalar ((atoi g : ℚ) / 1023)) := by
            rw [huntouched, getD_set_self _ _ _ _ hidx]
          have hfalse : SignificantlyDifferent (vals'.getD idx 0)
              (if cfg.InvertSliders then 1 - NormalizeScalar ((atoi g : ℚ) / 1023)
                else NormalizeScalar ((atoi g : ℚ) / 1023))
              cfg.NoiseReductionLevel = false := by
            rw [hread]
            obtain ⟨k, hk⟩ := normalizedScalar_cent cfg (atoi g)
            exact significantlyDifferent_refl_cent _ k hk _
          rw [if_neg (by simp only [hfalse]; simp)]
          exact ih (idx + 1) _ vals' events
            (by simp only [List.length_set, List.length_cons] at hlen ⊢; omega) hrec
      · rw [if_neg (by simpa using hsd)] at h
        have huntouched := decodeValues_untouched cfg rest (idx + 1) vals vals' evs h idx
          (by omega)
        have hfalse : SignificantlyDifferent (vals'.getD idx 0)
            (if cfg.InvertSliders then 1 - NormalizeScalar ((atoi g : ℚ) / 1023)
              else NormalizeScalar ((atoi g : ℚ) / 1023))
            cfg.NoiseReductionLevel = false := by
          rw [huntouched]
          simpa using hsd
        rw [if_neg (by simp only [hfalse]; simp)]
        exact ih (idx + 1) vals vals' evs
          (by simp only [List.length_cons] at hlen ⊢; omega) h

/-- A state aligned with the line (matching slider count, stored values that
re-decode to themselves or get the line rejected) produces no events. -/
theorem handleLine_aligned (cfg : SerialConfig) (st : SerialState) (line : List Char)
    (hm : expectedLineMatch line = true)
    (hkn : st.lastKnownNumSliders = (splitOnChar '|' (trimCRLF line)).length)
    (hstable :
      decodeValues cfg 0 st.currentSliderPercentValues (splitOnChar '|' (trimCRLF line))
          = some (st.currentSliderPercentValues, [])
      ∨ decodeValues cfg 0 st.currentSliderPercentValues (splitOnChar '|' (trimCRLF line))
          = none) :
    handleLine cfg st line = (st, []) := by
  unfold handleLine
  rw [if_pos hm]
  dsimp only
  rw [if_neg (by omega)]
  cases hstable with
  | inl h => rw [h]
  | inr h => rw [h]

/-- C2: decoding any line twice in a row, with the state left by the first
decode, yields zero move events on the second decode, for every invertSliders
setting and every noise-reduction level. The hypothesis is the decoder
invariant that the stored-values list has the previously known length (it
holds for the initial state and is preserved by every decode). -/
theorem idempotentReDecode (cfg : SerialConfig) (sio : SerialState) (line : List Char)
    (hinv : sio.currentSliderPercentValues.length = sio.lastKnownNumSliders) :
    (handleLine cfg (handleLine cfg sio line).1 line).2 = [] := by
  by_cases hm : expectedLineMatch line = true
  case neg =>
    have h1 : handleLine cfg sio line = (sio, []) := by
      unfold handleLine
      rw [if_neg hm]
    rw [h1]
    have h2 : handleLine cfg sio line = (sio, []) := h1
    unfold handleLine
    rw [if_neg hm]
  case pos =>
    obtain ⟨st1, evs1, hrun1⟩ : ∃ st1 evs1, handleLine cfg sio line = (st1, evs1) :=
      ⟨_, _, rfl⟩
    rw [hrun1]
    dsimp only
    unfold handleLine at hrun1
    rw [if_pos hm] at hrun1
    dsimp only at hrun1
    by_cases hr : (splitOnChar '|' (trimCRLF line)).length ≠ sio.lastKnownNumSliders
    · rw [if_pos hr] at hrun1
      dsimp only at hrun1
      cases hdec : decodeValues cfg 0
          (List.replicate (splitOnChar '|' (trimCRLF line)).length (-1 : ℚ))
          (splitOnChar '|' (trimCRLF line)) with
      | none =>
        rw [hdec] at hrun1
        dsimp only at hrun1
        have hst1 : st1 = ⟨(splitOnChar '|' (trimCRLF line)).length,
            List.replicate (splitOnChar '|' (trimCRLF line)).length (-1 : ℚ)⟩ := by
          simpa using (congrArg Prod.fst hrun1).symm
        rw [hst1, handleLine_aligned cfg _ line hm rfl (Or.inr hdec)]
      | some p =>
        obtain ⟨fv, evs⟩ := p
        rw [hdec] at hrun1
        dsimp only at hrun1
        have hst1 : st1 = ⟨(splitOnChar '|' (trimCRLF line)).length, fv⟩ := by
          simpa using (congrArg Prod.fst hrun1).symm
        have hstable := decodeValues_stable cfg (splitOnChar '|' (trimCRLF line)) 0
          (List.replicate (splitOnChar '|' (trimCRLF line)).length (-1 : ℚ)) fv evs
          (by simp) hdec
        rw [hst1, handleLine_aligned cfg _ line hm rfl (Or.inl hstable)]
    · rw [if_neg hr] at hrun1
      have heq : sio.lastKnownNumSliders = (splitOnChar '|' (trimCRLF line)).length := by
        omega
      cases hdec : decodeValues cfg 0 sio.currentSliderPercentValues
          (splitOnChar '|' (trimCRLF line)) with
      | none =>
        rw [hdec] at hrun1
        dsimp only at hrun1
        have hst1 : st1 = sio := by
          simpa using (congrArg Prod.fst hrun1).symm
        rw [hst1, handleLine_aligned cfg _ line hm heq (Or.inr hdec)]
      | some p =>
        obtain ⟨fv, evs⟩ := p
        rw [hdec] at hrun1
        dsimp only at hrun1
        have hst1 : st1 = { sio with currentSliderPercentValues := fv } := by
          simpa using (congrArg Prod.fst hrun1).symm
        have hstable := decodeValues_stable cfg (splitOnChar '|' (trimCRLF line)) 0
          sio.currentSliderPercentValues fv evs (by omega) hdec
        rw [hst1]
        have hrest := handleLine_aligned cfg ⟨sio.lastKnownNumSliders, fv⟩ line hm heq
          (Or.inl hstable)
        rw [hrest]

/-- C2 witness: a concrete decode of the line 512|0 CRLF from the fresh
decoder state, whose second decode emits no events. -/
theorem idempotentReDecode_witness :
    (handleLine ⟨false, "default"⟩
      (handleLine ⟨false, "default"⟩ ⟨0, []⟩ ("512|0\r\n").data).1
      ("512|0\r\n").data).2 = [] :=
  idempotentReDecode ⟨false, "default"⟩ ⟨0, []⟩ ("512|0\r\n").data (by decide)

theorem splitOnChar_ne_nil (sep : Char) : ∀ l : List Char, splitOnChar sep l ≠ [] := by
  intro l
  induction l with
  | nil => simp [splitOnChar]
  | cons c cs ih =>
    simp only [splitOnChar]
    split
    · simp
    · cases h : splitOnChar sep cs with
      | nil => simp
      | cons g gs => simp

/-- The first-token sanity check rejects the whole line at slider index 0. -/
theorem decodeValues_first_reject (cfg : SerialConfig) (vals : List ℚ) (g : List Char)
    (rest : List (List Char)) (hg : 1023 < atoi g) :
    decodeValues cfg 0 vals (g :: rest) = none := by
  simp only [decodeValues]
  rw [if_pos ⟨trivial, hg⟩]

theorem getD_replicate {α : Type} (a d : α) : ∀ (n j : ℕ), j < n →
    (List.replicate n a).getD j d = a := by
  intro n
  induction n with
  | zero => intro j h; omega
  | succ n ih =>
    intro j h
    cases j with
    | zero => simp [List.replicate, List.getD_cons_zero]
    | succ j =>
      simp only [List.replicate, List.getD_cons_succ]
      exact ih j (by omega)

theorem atoi_foldl_nonneg : ∀ (g : List Char) (acc : ℤ), 0 ≤ acc →
    (∀ c ∈ g, isDigitChar c = true) →
    0 ≤ g.foldl (fun n c => n * 10 + ((c.toNat : ℤ) - 48)) acc := by
  intro g
  induction g with
  | nil =>
    intro acc h _
    simpa using h
  | cons c cs ih =>
    intro acc hacc hd
    simp only [List.foldl_cons]
    apply ih
    · have hc := hd c (by simp)
      unfold isDigitChar at hc
      simp only [Bool.and_eq_true, decide_eq_true_eq] at hc
      have h48 : (48:ℤ) ≤ (c.toNat : ℤ) := by exact_mod_cast hc.1
      omega
    · intro c2 hc2
      exact hd c2 (by simp [hc2])

theorem atoi_nonneg (g : List Char) (hg : isDigitGroup g = true) : 0 ≤ atoi g := by
  unfold isDigitGroup at hg
  simp only [Bool.and_eq_true, List.all_eq_true] at hg
  exact atoi_foldl_nonneg g 0 (by norm_num) hg.2

/-- All pipe-separated groups of a line accepted by the grammar are one to
four digit groups. -/
theorem expectedLineMatch_groups (line : List Char) (hm : expectedLineMatch line = true) :
    ∀ g ∈ splitOnChar '|' (trimCRLF line), isDigitGroup g = true := by
  unfold expectedLineMatch at hm
  split at hm
  · rename_i rest heq
    unfold trimCRLF
    rw [heq]
    intro g hg
    exact List.all_eq_true.mp hm g hg
  · exact absurd hm (by simp)

/-- Decoding over all-sentinel stored percent values with every reading in
the raw range accepts every reading and emits one event per slider, in
index order. -/
theorem decodeValues_sentinel_all (cfg : SerialConfig) :
    ∀ (l : List (List Char)) (idx : ℕ) (vals : List ℚ),
      vals.length = idx + l.length →
      (∀ g ∈ l, (0:ℤ) ≤ atoi g ∧ atoi g ≤ 1023) →
      (∀ j, idx ≤ j → j < vals.length → vals.getD j 0 = -1) →
      ∃ finalVals evs, decodeValues cfg idx vals l = some (finalVals, evs)
        ∧ evs.map SliderMoveEvent.SliderID = List.range' idx l.length := by
  intro l
  induction l with
  | nil =>
    intro idx vals _ _ _
    exact ⟨vals, [], by simp [decodeValues], by simp [List.range']⟩
  | cons g rest ih =>
    intro idx vals hlen hvals hsent
    have hg := hvals g (by simp)
    have h0 : ¬(idx = 0 ∧ 1023 < atoi g) := by
      intro hc
      exact absurd hc.2 (not_lt.mpr hg.2)
    have hidx : idx < vals.length := by
      simp only [List.length_cons] at hlen
      omega
    have hstored : vals.getD idx 0 = -1 := hsent idx (le_refl idx) hidx
    have hsd : SignificantlyDifferent (vals.getD idx 0)
        (if cfg.InvertSliders then 1 - NormalizeScalar ((atoi g : ℚ) / 1023)
          else NormalizeScalar ((atoi g : ℚ) / 1023))
        cfg.NoiseReductionLevel = true := by
      rw [hstored]
      exact significantlyDifferent_sentinel _ cfg.NoiseReductionLevel
        (normalizedScalar_nonneg cfg (atoi g) hg.1 hg.2)
    obtain ⟨fv, evs, hrec, hmap⟩ := ih (idx + 1)
      (vals.set idx (if cfg.InvertSliders then 1 - NormalizeScalar ((atoi g : ℚ) / 1023)
        else NormalizeScalar ((atoi g : ℚ) / 1023)))
      (by simp only [List.length_set, List.length_cons] at hlen ⊢; omega)
      (fun g2 hg2 => hvals g2 (by simp [hg2]))
      (by
        intro j hj hjl
        rw [getD_set_ne _ _ _ _ _ (by omega)]
        exact hsent j (by omega) (by simpa using hjl))
    refine ⟨fv, ⟨idx, if cfg.InvertSliders then 1 - NormalizeScalar ((atoi g : ℚ) / 1023)
      else NormalizeScalar ((atoi g : ℚ) / 1023)⟩ :: evs, ?_, ?_⟩
    · simp only [decodeValues]
      rw [if_neg h0, if_pos hsd, hrec]
    · simp only [List.map_cons, hmap, List.length_cons]
      rw [List.range'_succ]

/-- C3 counterexample: a grammatically valid line whose first value exceeds
1023 but whose group count differs from the previously known slider count
(five) does change the decoder state: the known count becomes three and the
stored values are reset to the sentinel before the line is discarded. -/
theorem firstTokenDiscardChangesState :
    (handleLine ⟨false, "default"⟩ ⟨5, [0, 0, 0, 0, 0]⟩ ("4558|1|2\r\n").data).2 = []
    ∧ (handleLine ⟨false, "default"⟩ ⟨5, [0, 0, 0, 0, 0]⟩
        ("4558|1|2\r\n").data).1.lastKnownNumSliders = 3 := by
  decide

/-- C3 (amended): a grammatically valid line whose first value exceeds 1023
is discarded with no events; the decoder state is unchanged when the line's
group count equals lastKnownNumSliders, but when the count differs,
lastKnownNumSliders is updated to the new count and all stored values are
reset to the sentinel before the discard. -/
theorem firstTokenDiscard (cfg : SerialConfig) (sio : SerialState) (line : List Char)
    (hm : expectedLineMatch line = true)
    (hfirst : 1023 < atoi ((splitOnChar '|' (trimCRLF line)).headD [])) :
    (handleLine cfg sio line).2 = []
    ∧ ((splitOnChar '|' (trimCRLF line)).length = sio.lastKnownNumSliders →
        (handleLine cfg sio line).1 = sio)
    ∧ ((splitOnChar '|' (trimCRLF line)).length ≠ sio.lastKnownNumSliders →
        (handleLine cfg sio line).1 =
          ⟨(splitOnChar '|' (trimCRLF line)).length,
            List.replicate (splitOnChar '|' (trimCRLF line)).length (-1 : ℚ)⟩) := by
  obtain ⟨g, rest, hsplit⟩ : ∃ g rest, splitOnChar '|' (trimCRLF line) = g :: rest := by
    cases h : splitOnChar '|' (trimCRLF line) with
    | nil => exact absurd h (splitOnChar_ne_nil _ _)
    | cons g rest => exact ⟨g, rest, rfl⟩
  rw [hsplit] at hfirst
  simp only [List.headD_cons] at hfirst
  unfold handleLine
  rw [if_pos hm]
  dsimp only
  rw [hsplit]
  by_cases hr : (g :: rest).length ≠ sio.lastKnownNumSliders
  · rw [if_pos hr, decodeValues_first_reject cfg _ g rest hfirst]
    exact ⟨rfl, fun hc => absurd hc hr, fun _ => rfl⟩
  · rw [if_neg hr, decodeValues_first_reject cfg _ g rest hfirst]
    exact ⟨rfl, fun _ => rfl, fun hc => absurd hc hr⟩

/-- C3 witness: the amended theorem applied to the concrete garbled line
4558|1|2 CRLF with a five-slider prior state. -/
theorem firstTokenDiscard_witness :
    (handleLine ⟨false, "default"⟩ ⟨5, [10, 20, 30, 40, 50]⟩ ("4558|1|2\r\n").data).2
      = [] :=
  (firstTokenDiscard ⟨false, "default"⟩ ⟨5, [10, 20, 30, 40, 50]⟩ ("4558|1|2\r\n").data
    (by decide) (by decide)).1

/-- Evaluation helper: a matched line whose group count differs from the
known slider count runs the decode loop on freshly reset sentinel values. -/
theorem handleLine_eval (cfg : SerialConfig) (sio : SerialState) (line : List Char)
    (groups : List (List Char)) (fv : List ℚ) (evs : List SliderMoveEvent)
    (hm : expectedLineMatch line = true)
    (hsplit : splitOnChar '|' (trimCRLF line) = groups)
    (hne : groups.length ≠ sio.lastKnownNumSliders)
    (hdec : decodeValues cfg 0 (List.replicate groups.length (-1 : ℚ)) groups
        = some (fv, evs)) :
    handleLine cfg sio line = (⟨groups.length, fv⟩, evs) := by
  unfold handleLine
  rw [if_pos hm]
  dsimp only
  rw [hsplit]
  rw [if_pos hne]
  dsimp only
  rw [hdec]

/-- C5 counterexample: with inverted sliders, a grammatically valid
three-value line whose first value is in range can emit fewer than three
events after a five-slider history: the middle value 2046 normalizes to 2.0
and inverts to -1.0, exactly the reset sentinel, so the noise filter never
fires for that slider and only the two events for sliders 0 and 2 are
emitted. -/
theorem invertedSentinelCollision :
    (handleLine ⟨true, "default"⟩ ⟨5, [0, 0, 0, 0, 0]⟩ ("0|2046|0\r\n").data).2.map
        SliderMoveEvent.SliderID = [0, 2]
    ∧ (handleLine ⟨true, "default"⟩ ⟨5, [0, 0, 0, 0, 0]⟩
        ("0|2046|0\r\n").data).2.length ≠ 3 := by
  have ha0 : atoi ['0'] = 0 := by decide
  have ha1 : atoi ['2', '0', '4', '6'] = 2046 := by decide
  have hns0 : (1 : ℚ) - NormalizeScalar 0 = 1 := by
    unfold NormalizeScalar
    norm_num
  have hns1 : (1 : ℚ) - NormalizeScalar (2046 / 1023) = -1 := by
    unfold NormalizeScalar
    norm_num
  have hsd1 : SignificantlyDifferent (-1 : ℚ) 1 "default" = true := by
    have hdef : significantDifferenceThreshold "default" = 25 / 1000 := rfl
    norm_num [SignificantlyDifferent, hdef, le_abs]
  have hsdm : SignificantlyDifferent (-1 : ℚ) (-1) "default" = false :=
    significantlyDifferent_refl_cent (-1) (-100) (by norm_num) "default"
  have hdec : decodeValues ⟨true, "default"⟩ 0 (List.replicate 3 (-1 : ℚ))
      [['0'], ['2', '0', '4', '6'], ['0']]
      = some ([1, -1, 1], [⟨0, 1⟩, ⟨2, 1⟩]) := by
    show decodeValues ⟨true, "default"⟩ 0 [-1, -1, -1]
        [['0'], ['2', '0', '4', '6'], ['0']]
        = some ([1, -1, 1], [⟨0, 1⟩, ⟨2, 1⟩])
    simp [decodeValues, ha0, ha1, hns0, hns1, hsd1, hsdm]
  have hrun := handleLine_eval ⟨true, "default"⟩ ⟨5, [0, 0, 0, 0, 0]⟩
    ("0|2046|0\r\n").data [['0'], ['2', '0', '4', '6'], ['0']] [1, -1, 1]
    [⟨0, 1⟩, ⟨2, 1⟩] (by decide) (by decide) (by decide) hdec
  rw [hrun]
  constructor
  · rfl
  · simp

/-- C5 (amended): after a five-slider history, a grammatically valid
three-value line all of whose values lie within the raw range 0-1023 resets
the stored state and emits exactly three move events, one per slider index
0, 1, 2, for every invertSliders setting and noise level. (An out-of-range
value under inversion can collide with the -1.0 sentinel and be suppressed,
per the counterexample.) -/
theorem sliderCountResetEmitsAll (cfg : SerialConfig) (sio : SerialState) (line : List Char)
    (hm : expectedLineMatch line = true)
    (hcount : (splitOnChar '|' (trimCRLF line)).length = 3)
    (hprev : sio.lastKnownNumSliders = 5)
    (hvals : ∀ g ∈ splitOnChar '|' (trimCRLF line), atoi g ≤ 1023) :
    (handleLine cfg sio line).2.map SliderMoveEvent.SliderID = [0, 1, 2]
    ∧ (handleLine cfg sio line).1.lastKnownNumSliders = 3 := by
  unfold handleLine
  rw [if_pos hm]
  dsimp only
  have hr : (splitOnChar '|' (trimCRLF line)).length ≠ sio.lastKnownNumSliders := by
    omega
  rw [if_pos hr]
  obtain ⟨fv, evs, hdec, hmap⟩ := decodeValues_sentinel_all cfg
    (splitOnChar '|' (trimCRLF line)) 0
    (List.replicate (splitOnChar '|' (trimCRLF line)).length (-1 : ℚ))
    (by simp)
    (fun g hg => ⟨atoi_nonneg g (expectedLineMatch_groups line hm g hg), hvals g hg⟩)
    (fun j _ hjl => getD_replicate _ _ _ j (by simpa using hjl))
  rw [hdec]
  constructor
  · dsimp only
    rw [hmap, hcount]
    rfl
  · dsimp only
    exact hcount

/-- C5 witness: the amended theorem applied to the concrete in-range line
999|1000|0 CRLF after a five-slider history. -/
theorem sliderCountResetEmitsAll_witness :
    (handleLine ⟨false, "default"⟩ ⟨5, [1, 2, 3, 4, 5]⟩ ("999|1000|0\r\n").data).2.map
        SliderMoveEvent.SliderID = [0, 1, 2]
    ∧ (handleLine ⟨false, "default"⟩ ⟨5, [1, 2, 3, 4, 5]⟩
        ("999|1000|0\r\n").data).1.lastKnownNumSliders = 3 :=
  sliderCountResetEmitsAll ⟨false, "default"⟩ ⟨5, [1, 2, 3, 4, 5]⟩
    ("999|1000|0\r\n").data (by decide) (by decide) rfl (by decide)

/-- C4 counterexample: the claim's strictly increasing order none < low fails on
the code. At old = 0.5, new = 0.52 (away from both range edges) the filter fires
under level "low" but not under level "none", because "none" is not a recognized
level and falls through to the default threshold 0.025 > 0.015. -/
theorem noiseReductionNoneNotBelowLow :
    SignificantlyDifferent (1/2) (13/25) "low" = true
    ∧ SignificantlyDifferent (1/2) (13/25) "none" = false
    ∧ ¬(significantDifferenceThreshold "none" < significantDifferenceThreshold "low") := by
  have hlow : significantDifferenceThreshold "low" = 15 / 1000 := rfl
  have hnone : significantDifferenceThreshold "none" = 25 / 1000 := rfl
  refine ⟨?_, ?_, ?_⟩
  · norm_num [SignificantlyDifferent, almostEquals, hlow, le_abs, abs_sub_lt_iff]
  · norm_num [SignificantlyDifferent, almostEquals, hnone, le_abs, abs_sub_lt_iff]
  · rw [hnone, hlow]; norm_num

/-- C4 (amended): the recognized levels order as low (0.015) < default (0.025)
< high (0.035), while "none" has no dedicated case and maps to the default
threshold, so low < none = default < high; consequently whenever
SignificantlyDifferent fires under "high" it also fires under every other
level string (the edge-snap branch does not depend on the level). -/
theorem noiseReductionThresholdOrder :
    (significantDifferenceThreshold "low" < significantDifferenceThreshold "default"
      ∧ significantDifferenceThreshold "none" = significantDifferenceThreshold "default"
      ∧ significantDifferenceThreshold "default" < significantDifferenceThreshold "high")
    ∧ ∀ (old new : ℚ) (lvl : String),
        SignificantlyDifferent old new "high" = true →
        SignificantlyDifferent old new lvl = true := by
  have hlow : significantDifferenceThreshold "low" = 15 / 1000 := rfl
  have hnone : significantDifferenceThreshold "none" = 25 / 1000 := rfl
  have hdef : significantDifferenceThreshold "default" = 25 / 1000 := rfl
  have hhigh : significantDifferenceThreshold "high" = 35 / 1000 := rfl
  refine ⟨⟨?_, ?_, ?_⟩, ?_⟩
  · rw [hlow, hdef]; norm_num
  · rw [hnone, hdef]
  · rw [hdef, hhigh]; norm_num
  · intro old new lvl h
    exact significantlyDifferent_high_mono old new lvl h

/-- C4 witness: instantiates the amended monotonicity at old = 0, new = 1,
level "none", where the "high" filter fires. -/
theorem noiseReductionThresholdOrder_witness :
    SignificantlyDifferent 0 1 "none" = true :=
  noiseReductionThresholdOrder.2 0 1 "none" (by
    have hhigh : significantDifferenceThreshold "high" = 35 / 1000 := rfl
    norm_num [SignificantlyDifferent, almostEquals, hhigh, le_abs])

/-! ## String helpers for the session directory

Go strings.ToLower, strings.HasPrefix and strings.TrimPrefix restricted to
the ASCII range actually used by session keys and targets, implemented over
the character list of the string. -/

/-- ASCII lowercasing of one character. -/
def charToLower (c : Char) : Char :=
  if 65 ≤ c.toNat ∧ c.toNat ≤ 90 then Char.ofNat (c.toNat + 32) else c

/-- Embeds strings.ToLower (ASCII range). -/
def strToLower (s : String) : String := ⟨s.data.map charToLower⟩

/-- Embeds strings.HasPrefix. -/
def strStarts (s t : String) : Bool := t.data.isPrefixOf s.data

/-! ## Window-focus query: the cached getCurrentWindowProcessNames of
pkg/deej/util (Windows implementation) -/

/-- The package-level mutable state of the window query: the cached result
and the time of the last call (milliseconds). -/
structure WinState where
  lastGetCurrentWindowResult : List String
  lastGetCurrentWindowCall : ℤ
deriving Repr, DecidableEq

/-- The environment one call observes: current time in milliseconds, whether
the foreground window is fullscreen, whether its owner pid is zero, and the
outcome of resolving the foreground process names (parent plus child
windows; none models a FindProcess error). -/
structure WinEnv where
  now : ℤ
  foregroundFullscreen : Bool
  ownerPIDZero : Bool
  processNames : Option (List String)
deriving Repr, DecidableEq

/-- Result of one call: the returned names, the error flag, whether
process-name resolution was attempted, and the state left behind. -/
structure WinResult where
  names : List String
  isErr : Bool
  resolvedNames : Bool
  state : WinState
deriving Repr, DecidableEq

/-- The internal cooldown of the window query (350 ms). -/
def getCurrentWindowInternalCooldown : ℤ := 350

/-- Embeds getCurrentWindowProcessNames: return the cached result while the
cooldown has not elapsed; otherwise stamp the call time, answer the
fullscreen check (empty result when negative, before any pid or process
lookup), handle the system pid and resolution error cases, and cache the
resolved names. -/
def getCurrentWindowProcessNames (st : WinState) (env : WinEnv)
    (checkFullscreen : Bool) : WinResult :=
  if env.now < st.lastGetCurrentWindowCall + getCurrentWindowInternalCooldown then
    ⟨st.lastGetCurrentWindowResult, false, false, st⟩
  else
    let st1 : WinState := { st with lastGetCurrentWindowCall := env.now }
    if checkFullscreen && !env.foregroundFullscreen then
      ⟨[], false, false, st1⟩
    else if env.ownerPIDZero then
      ⟨[], false, false, st1⟩
    else
      match env.processNames with
      | none => ⟨[], true, true, st1⟩
      | some result =>
        ⟨result, false, true, { st1 with lastGetCurrentWindowResult := result }⟩

/-! ## Session directory and routing engine: the sessionMap of pkg/deej -/

/-- The view of a Session the routing path uses: its lookup key, its current
volume (GetVolume) and whether SetVolume succeeds on it. Handle equality
models Go interface identity. -/
structure SessionHandle where
  key : String
  volume : ℚ
  setVolumeOk : Bool
deriving Repr, DecidableEq

def masterSessionName : String := "master"

def systemSessionName : String := "system"

def inputSessionName : String := "mic"

/-- The special target transform marker (source constant named after the
word for a leading substring). -/
def specialTargetMarker : String := "deej."

def specialTargetCurrentWindow : String := "current"

def specialTargetCurrentFullscreenWindow : String := "current.fullscreen"

def specialTargetAllUnmapped : String := "unmapped"

/-- Embeds strings.TrimPrefix for the special target marker. -/
def strDropMarker (s : String) : String :=
  if strStarts s specialTargetMarker then ⟨s.data.drop specialTargetMarker.data.length⟩
  else s

/-- Embeds the regexp deviceSessionKeyPattern (dot-plus, space, opening
parenthesis, dot-plus, closing parenthesis, anchored): a nonempty head, a
space directly followed by an opening parenthesis, a nonempty middle and a
final closing parenthesis. Keys are assumed newline-free, so the dot class
is modelled as any character. -/
def deviceSessionKeyMatch (s : String) : Bool :=
  let cs := s.data
  (List.range cs.length).any (fun i =>
    decide (1 ≤ i) && (cs.getD i ' ' == ' ') && (cs.getD (i + 1) ' ' == '(')
      && decide (i + 2 < cs.length - 1) && (cs.getD (cs.length - 1) ' ' == ')'))

/-- The sessionMap state: the key-to-sessions map as an association list,
the unmapped side table, and the tracking mode flag. -/
structure SessionMapState where
  m : List (String × List SessionHandle)
  unmappedSessions : List SessionHandle
  eventDriven : Bool
deriving Repr, DecidableEq

/-- Embeds sessionMap.get (map read under the mutex). -/
def lookupKey (m : List (String × List SessionHandle)) (key : String) :
    Option (List SessionHandle) :=
  List.lookup key m

/-- Replaces the session list stored under an existing key. -/
def setKey (m : List (String × List SessionHandle)) (key : String)
    (v : List SessionHandle) : List (String × List SessionHandle) :=
  m.map (fun p => if p.1 == key then (p.1, v) else p)

/-- Embeds sessionMap.add: append under the existing key, or create the key
with a one-element list. -/
def addSession (m : List (String × List SessionHandle)) (value : SessionHandle) :
    List (String × List SessionHandle) :=
  match List.lookup value.key m with
  | none => m ++ [(value.key, [value])]
  | some existing => setKey m value.key (existing ++ [value])

/-- Embeds sessionMap.removeSession: drop the first identical session under
its key, and delete the key when its list becomes empty. -/
def removeSession (sm : SessionMapState) (session : SessionHandle) : SessionMapState :=
  match List.lookup session.key sm.m with
  | none => sm
  | some sessions =>
    let remaining := sessions.erase session
    if remaining.isEmpty then
      { sm with m := sm.m.filter (fun p => !(p.1 == session.key)) }
    else
      { sm with m := setKey sm.m session.key remaining }

/-- Embeds funk.UniqString: keep the first occurrence of every string. -/
def uniqStringsAux (seen : List String) : List String → List String
  | [] => []
  | s :: rest =>
    if seen.contains s then uniqStringsAux seen rest
    else s :: uniqStringsAux (s :: seen) rest

def uniqStrings (l : List String) : List String := uniqStringsAux [] l

/-- Embeds sessionMap.targetHasSpecialTransform. -/
def targetHasSpecialTransform (target : String) : Bool :=
  strStarts target specialTargetMarker

/-- Embeds sessionMap.applyTargetTransform: the current-window cases query
the window collaborator (the fullscreen case falls through into the plain
case with the check enabled), silently drop errors, lowercase and
de-duplicate; the all-unmapped case returns the keys of the unmapped side
table; unknown names resolve to nothing. -/
def applyTargetTransform (sm : SessionMapState) (wst : WinState) (wenv : WinEnv)
    (specialTargetName : String) : List String :=
  if specialTargetName == specialTargetCurrentFullscreenWindow
      || specialTargetName == specialTargetCurrentWindow then
    let checkFullscreen := specialTargetName == specialTargetCurrentFullscreenWindow
    let r := getCurrentWindowProcessNames wst wenv checkFullscreen
    if r.isErr then []
    else uniqStrings (r.names.map strToLower)
  else if specialTargetName == specialTargetAllUnmapped then
    sm.unmappedSessions.map SessionHandle.key
  else []

/-- Embeds sessionMap.resolveTarget: lowercase, then dispatch special
targets through the transform; other targets resolve to themselves. -/
def resolveTarget (sm : SessionMapState) (wst : WinState) (wenv : WinEnv)
    (target : String) : List String :=
  let target := strToLower target
  if targetHasSpecialTransform target then
    applyTargetTransform sm wst wenv (strDropMarker target)
  else [target]

/-- Embeds sessionMap.sessionMapped: reserved names and device-pattern keys
always count as mapped; otherwise the config mappings are scanned, special
transforms are skipped, and the first resolved name of each remaining
target is compared with the session key. -/
def sessionMapped (cfg : List (ℕ × List String)) (sm : SessionMapState)
    (wst : WinState) (wenv : WinEnv) (session : SessionHandle) : Bool :=
  if [masterSessionName, systemSessionName, inputSessionName].contains session.key then
    true
  else if deviceSessionKeyMatch session.key then
    true
  else
    cfg.any (fun p => p.2.any (fun target =>
      if targetHasSpecialTransform target then false
      else (resolveTarget sm wst wenv target).headD "" == session.key))

/-- Embeds sessionMap.getAndAddSessions on a successful backend snapshot:
reset the unmapped table, then add every session and track the unmapped
ones in order. -/
def getAndAddSessions (cfg : List (ℕ × List String)) (wst : WinState) (wenv : WinEnv)
    (sm : SessionMapState) (sessions : List SessionHandle) : SessionMapState :=
  sessions.foldl (fun acc session =>
    let acc2 := { acc with m := addSession acc.m session }
    if !(sessionMapped cfg acc2 wst wenv session) then
      { acc2 with unmappedSessions := acc2.unmappedSessions ++ [session] }
    else acc2) { sm with unmappedSessions := [] }

/-- Whether adjusting a session list fails: a SetVolume error on some
session whose current volume differs from the event value (sessions at the
event value are skipped and cannot fail). -/
def adjustSessions (percent : ℚ) (sessions : List SessionHandle) : Bool :=
  sessions.any (fun session => session.volume != percent && !session.setVolumeOk)

/-- The observable outcome of sessionMap.handleSliderMoveEvent: the two
policy flags and the refresh calls issued (each entry is the force flag of
one refreshSessions call). -/
structure SliderMoveOutcome where
  targetFound : Bool
  adjustmentFailed : Bool
  refreshRequests : List Bool
deriving Repr, DecidableEq

/-- Embeds sessionMap.handleSliderMoveEvent: ignore sliders without a
configured mapping; resolve every target, look each resolved name up in the
map, adjust all matching sessions; afterwards request a non-forced refresh
when nothing was found in polling mode, or a forced refresh when an
adjustment failed. -/
def handleSliderMoveEvent (cfg : List (ℕ × List String)) (sm : SessionMapState)
    (wst : WinState) (wenv : WinEnv) (event : SliderMoveEvent) : SliderMoveOutcome :=
  match List.lookup event.SliderID cfg with
  | none => ⟨false, false, []⟩
  | some targets =>
    let found := targets.foldl (fun acc target =>
      (resolveTarget sm wst wenv target).foldl (fun acc2 resolvedTarget =>
        match lookupKey sm.m resolvedTarget with
        | none => acc2
        | some sessions =>
          (true, acc2.2 || adjustSessions event.PercentValue sessions)) acc)
      (false, false)
    let refreshRequests :=
      if !found.1 && !sm.eventDriven then [false]
      else if found.2 then [true]
      else []
    ⟨found.1, found.2, refreshRequests⟩

/-- The inner fold over resolved targets is the pair of any-queries: some
resolved name has sessions, and some resolved name has a failing
adjustment. -/
theorem resolvedFold_spec (sm : SessionMapState) (p : ℚ) :
    ∀ (rts : List String) (acc : Bool × Bool),
      rts.foldl (fun acc2 resolvedTarget =>
        match lookupKey sm.m resolvedTarget with
        | none => acc2
        | some sessions => (true, acc2.2 || adjustSessions p sessions)) acc
      = (acc.1 || rts.any (fun rt => (lookupKey sm.m rt).isSome),
         acc.2 || rts.any (fun rt => adjustSessions p ((lookupKey sm.m rt).getD []))) := by
  intro rts
  induction rts with
  | nil => intro acc; simp
  | cons rt rest ih =>
    intro acc
    simp only [List.foldl_cons, List.any_cons]
    cases hl : lookupKey sm.m rt with
    | none =>
      rw [ih acc]
      simp [hl, adjustSessions]
    | some sessions =>
      rw [ih (true, acc.2 || adjustSessions p sessions)]
      simp [hl, Bool.or_assoc]

/-- The outer fold over configured targets is the corresponding pair of
any-queries over all resolved names. -/
theorem targetsFold_spec (sm : SessionMapState) (wst : WinState) (wenv : WinEnv) (p : ℚ) :
    ∀ (targets : List String) (acc : Bool × Bool),
      targets.foldl (fun acc target =>
        (resolveTarget sm wst wenv target).foldl (fun acc2 resolvedTarget =>
          match lookupKey sm.m resolvedTarget with
          | none => acc2
          | some sessions => (true, acc2.2 || adjustSessions p sessions)) acc) acc
      = (acc.1 || targets.any (fun t => (resolveTarget sm wst wenv t).any
            (fun rt => (lookupKey sm.m rt).isSome)),
         acc.2 || targets.any (fun t => (resolveTarget sm wst wenv t).any
            (fun rt => adjustSessions p ((lookupKey sm.m rt).getD [])))) := by
  intro targets
  induction targets with
  | nil => intro acc; simp
  | cons t rest ih =>
    intro acc
    simp only [List.foldl_cons, List.any_cons]
    rw [resolvedFold_spec sm p (resolveTarget sm wst wenv t) acc, ih]
    simp [Bool.or_assoc]

/-- A failing adjustment needs a looked-up session list, so the failure flag
implies the found flag. -/
theorem adjustFailed_implies_found (sm : SessionMapState) (wst : WinState)
    (wenv : WinEnv) (p : ℚ) (targets : List String)
    (h : targets.any (fun t => (resolveTarget sm wst wenv t).any
        (fun rt => adjustSessions p ((lookupKey sm.m rt).getD []))) = true) :
    targets.any (fun t => (resolveTarget sm wst wenv t).any
        (fun rt => (lookupKey sm.m rt).isSome)) = true := by
  simp only [List.any_eq_true] at h ⊢
  obtain ⟨t, ht, rt, hrt, hfail⟩ := h
  refine ⟨t, ht, rt, hrt, ?_⟩
  cases hl : lookupKey sm.m rt with
  | none => rw [hl] at hfail; simp [adjustSessions] at hfail
  | some sessions => simp

/-- Boolean core of the post-pass refresh policy of handleSliderMoveEvent. -/
theorem refreshPolicyBool (tf af ed : Bool) (himp : af = true → tf = true) :
    ((if !tf && !ed then [false] else if af then [true] else []).contains false = true
        ↔ (tf = false ∧ ed = false))
    ∧ ((if !tf && !ed then [false] else if af then [true] else []).contains true = true
        ↔ af = true)
    ∧ ¬((if !tf && !ed then [false] else if af then [true] else []).contains false = true
        ∧ (if !tf && !ed then [false] else if af then [true] else []).contains true = true) := by
  cases tf <;> cases af <;> cases ed <;> simp_all

/-- C1: for a slider-move event whose slider has a configured mapping, a
non-forced refresh is requested iff no resolved target name had sessions in
the map and the backend is polling-mode; a forced refresh is requested iff
some adjustment failed; and the two are never both requested for the same
event, because a failed adjustment implies a found target. -/
theorem sliderMoveRefreshPolicy (cfg : List (ℕ × List String)) (sm : SessionMapState)
    (wst : WinState) (wenv : WinEnv) (event : SliderMoveEvent) (targets : List String)
    (hmapping : List.lookup event.SliderID cfg = some targets) :
    (((handleSliderMoveEvent cfg sm wst wenv event).refreshRequests.contains false = true)
      ↔ (targets.any (fun t => (resolveTarget sm wst wenv t).any
            (fun rt => (lookupKey sm.m rt).isSome)) = false
          ∧ sm.eventDriven = false))
    ∧ (((handleSliderMoveEvent cfg sm wst wenv event).refreshRequests.contains true = true)
      ↔ targets.any (fun t => (resolveTarget sm wst wenv t).any
            (fun rt => adjustSessions event.PercentValue ((lookupKey sm.m rt).getD [])))
          = true)
    ∧ ¬((handleSliderMoveEvent cfg sm wst wenv event).refreshRequests.contains false = true
        ∧ (handleSliderMoveEvent cfg sm wst wenv event).refreshRequests.contains true
            = true) := by
  have hout : handleSliderMoveEvent cfg sm wst wenv event =
      ⟨targets.any (fun t => (resolveTarget sm wst wenv t).any
          (fun rt => (lookupKey sm.m rt).isSome)),
        targets.any (fun t => (resolveTarget sm wst wenv t).any
          (fun rt => adjustSessions event.PercentValue ((lookupKey sm.m rt).getD []))),
        if !(targets.any (fun t => (resolveTarget sm wst wenv t).any
              (fun rt => (lookupKey sm.m rt).isSome))) && !sm.eventDriven then [false]
        else if targets.any (fun t => (resolveTarget sm wst wenv t).any
            (fun rt => adjustSessions event.PercentValue ((lookupKey sm.m rt).getD [])))
          then [true]
        else []⟩ := by
    unfold handleSliderMoveEvent
    rw [hmapping]
    dsimp only
    rw [targetsFold_spec]
    simp only [Bool.false_or]
  rw [hout]
  exact refreshPolicyBool _ _ sm.eventDriven
    (adjustFailed_implies_found sm wst wenv event.PercentValue targets)

/-- C1 witness: a slider mapped to master with an empty session map in
polling mode: the non-forced refresh is requested and the forced one is
not. -/
theorem sliderMoveRefreshPolicy_witness :
    ((handleSliderMoveEvent [(0, ["master"])] ⟨[], [], false⟩ ⟨[], 0⟩
        ⟨0, false, false, none⟩ ⟨0, 1/2⟩).refreshRequests.contains false = true
      ↔ ((["master"] : List String).any (fun t =>
            (resolveTarget ⟨[], [], false⟩ ⟨[], 0⟩ ⟨0, false, false, none⟩ t).any
              (fun rt => (lookupKey [] rt).isSome)) = false
          ∧ (false : Bool) = false)) :=
  (sliderMoveRefreshPolicy [(0, ["master"])] ⟨[], [], false⟩ ⟨[], 0⟩
    ⟨0, false, false, none⟩ ⟨0, 1/2⟩ ["master"] (by decide)).1

/-! ## Session removal event handler -/

/-- A runtime fault of the Go program. -/
inductive RuntimeFault where
  | nilDereference
deriving Repr, DecidableEq

/-- Embeds sessionMap.handleSessionRemoved. The SessionEvent Session is an
interface value that may be nil (none); the opening log statement calls
event.Session.Key(), dereferencing it before the nil guard runs. The guard
then returns early on nil; otherwise the session is removed from the map
and from the unmapped side table (first identical entry). -/
def handleSessionRemoved (sm : SessionMapState) (eventSession : Option SessionHandle) :
    Except RuntimeFault SessionMapState :=
  match (match eventSession with
          | none => Except.error RuntimeFault.nilDereference
          | some s => Except.ok s.key) with
  | Except.error e => Except.error e
  | Except.ok _ =>
    match eventSession with
    | none => Except.ok sm
    | some session =>
      let sm2 := removeSession sm session
      Except.ok { sm2 with unmappedSessions := sm2.unmappedSessions.erase session }

/-- C10: handleSessionRemoved dereferences the Session for its log line
before the nil guard: a nil Session faults despite the guard (the guard
prevents nothing), and with a non-nil Session the guard branch is never
taken and the removal proceeds, so the guard is dead code. -/
theorem handleSessionRemovedNilGuardDead (sm : SessionMapState) :
    handleSessionRemoved sm none = Except.error RuntimeFault.nilDereference
    ∧ ∀ s : SessionHandle, handleSessionRemoved sm (some s) =
        Except.ok { removeSession sm s with
          unmappedSessions := (removeSession sm s).unmappedSessions.erase s } := by
  exact ⟨rfl, fun s => rfl⟩

/-! ## Bulk refresh atomicity -/

/-- One mutex-protected section of a bulk refresh: refreshSessions calls
clear(), which locks, wipes the map and unlocks, and then getAndAddSessions
calls add(session) once per snapshot entry, each acquiring the lock
separately. The refresh is therefore this sequence of atomic sections, with
the lock released between consecutive sections. -/
inductive RefreshStep where
  | clearStep
  | addStep (s : SessionHandle)
deriving Repr, DecidableEq

def applyStep (m : List (String × List SessionHandle)) :
    RefreshStep → List (String × List SessionHandle)
  | RefreshStep.clearStep => []
  | RefreshStep.addStep s => addSession m s

/-- The atomic sections of refreshSessions on a given backend snapshot. -/
def refreshSteps (snapshot : List SessionHandle) : List RefreshStep :=
  RefreshStep.clearStep :: snapshot.map RefreshStep.addStep

def runSteps (m : List (String × List SessionHandle)) (steps : List RefreshStep) :
    List (String × List SessionHandle) :=
  steps.foldl applyStep m

/-- The map holding exactly the sessions of a snapshot, in add order. -/
def buildMap (snapshot : List SessionHandle) : List (String × List SessionHandle) :=
  snapshot.foldl addSession []

/-- C7 counterexample: the mutex is not held across clear plus repopulate.
After the clear section and one add section of a refresh whose snapshot
holds the same two sessions as the current map, a concurrent lookup of the
second key observes nothing, although that key is present both before and
after the whole refresh: an intermediate state differing from both. -/
theorem refreshNotAtomic :
    (runSteps (buildMap [⟨"a", 0, true⟩, ⟨"b", 0, true⟩])
        ((refreshSteps [⟨"a", 0, true⟩, ⟨"b", 0, true⟩]).take 2)
      ≠ buildMap [⟨"a", 0, true⟩, ⟨"b", 0, true⟩])
    ∧ (runSteps (buildMap [⟨"a", 0, true⟩, ⟨"b", 0, true⟩])
        ((refreshSteps [⟨"a", 0, true⟩, ⟨"b", 0, true⟩]).take 2)
      ≠ runSteps (buildMap [⟨"a", 0, true⟩, ⟨"b", 0, true⟩])
          (refreshSteps [⟨"a", 0, true⟩, ⟨"b", 0, true⟩]))
    ∧ lookupKey (runSteps (buildMap [⟨"a", 0, true⟩, ⟨"b", 0, true⟩])
        ((refreshSteps [⟨"a", 0, true⟩, ⟨"b", 0, true⟩]).take 2)) "b" = none
    ∧ lookupKey (buildMap [⟨"a", 0, true⟩, ⟨"b", 0, true⟩]) "b"
        = some [⟨"b", 0, true⟩] := by
  decide

/-- C7 (amended): each refresh sub-operation (the clear, and every add) is
individually atomic under the mutex, but the lock is released between them:
after the clear section and j add sections, a concurrent lookup observes
exactly the map built from the first j snapshot entries, so partially
repopulated states are observable. -/
theorem refreshStepsMidState (initial : List (String × List SessionHandle))
    (snapshot : List SessionHandle) (j : ℕ) :
    runSteps initial ((refreshSteps snapshot).take (1 + j))
      = buildMap (snapshot.take j) := by
  have h1 : (refreshSteps snapshot).take (1 + j)
      = RefreshStep.clearStep :: (snapshot.take j).map RefreshStep.addStep := by
    rw [show 1 + j = j + 1 from Nat.add_comm 1 j]
    simp [refreshSteps, List.take_succ_cons, List.map_take]
  rw [h1]
  show runSteps [] ((snapshot.take j).map RefreshStep.addStep) = buildMap (snapshot.take j)
  unfold runSteps buildMap
  rw [List.foldl_map]
  rfl

/-! ## Directory nonempty-list invariant -/

/-- Every key present in the map holds a nonempty session list. -/
def mapInvariant (m : List (String × List SessionHandle)) : Prop :=
  ∀ p ∈ m, p.2 ≠ []

theorem addSession_invariant (m : List (String × List SessionHandle))
    (s : SessionHandle) (h : mapInvariant m) : mapInvariant (addSession m s) := by
  unfold addSession
  cases hl : List.lookup s.key m with
  | none =>
    intro p hp
    rcases List.mem_append.mp hp with hp | hp
    · exact h p hp
    · simp only [List.mem_singleton] at hp
      rw [hp]
      simp
  | some existing =>
    intro p hp
    unfold setKey at hp
    rcases List.mem_map.mp hp with ⟨q, hq, hpq⟩
    by_cases hk : (q.1 == s.key) = true
    · rw [if_pos hk] at hpq
      rw [← hpq]
      simp
    · rw [if_neg hk] at hpq
      rw [← hpq]
      exact h q hq

theorem removeSession_invariant (sm : SessionMapState) (s : SessionHandle)
    (h : mapInvariant sm.m) : mapInvariant (removeSession sm s).m := by
  unfold removeSession
  cases hl : List.lookup s.key sm.m with
  | none => exact h
  | some sessions =>
    dsimp only
    by_cases he : (sessions.erase s).isEmpty = true
    · rw [if_pos he]
      intro p hp
      exact h p (List.mem_of_mem_filter hp)
    · rw [if_neg he]
      intro p hp
      unfold setKey at hp
      rcases List.mem_map.mp hp with ⟨q, hq, hpq⟩
      by_cases hk : (q.1 == s.key) = true
      · rw [if_pos hk] at hpq
        rw [← hpq]
        intro hc
        simp only at hc
        exact he (by rw [hc]; rfl)
      · rw [if_neg hk] at hpq
        rw [← hpq]
        exact h q hq

theorem getAndAdd_fold_invariant (cfg : List (ℕ × List String)) (wst : WinState)
    (wenv : WinEnv) : ∀ (sessions : List SessionHandle) (acc : SessionMapState),
    mapInvariant acc.m →
    mapInvariant ((sessions.foldl (fun acc session =>
      let acc2 := { acc with m := addSession acc.m session }
      if !(sessionMapped cfg acc2 wst wenv session) then
        { acc2 with unmappedSessions := acc2.unmappedSessions ++ [session] }
      else acc2) acc).m) := by
  intro sessions
  induction sessions with
  | nil => intro acc h; simpa using h
  | cons s rest ih =>
    intro acc h
    rw [List.foldl_cons]
    apply ih
    dsimp only
    split
    · exact addSession_invariant _ _ h
    · exact addSession_invariant _ _ h

theorem getAndAddSessions_invariant (cfg : List (ℕ × List String)) (wst : WinState)
    (wenv : WinEnv) (sm : SessionMapState) (sessions : List SessionHandle)
    (h : mapInvariant sm.m) :
    mapInvariant (getAndAddSessions cfg wst wenv sm sessions).m :=
  getAndAdd_fold_invariant cfg wst wenv sessions { sm with unmappedSessions := [] } h

/-- A directory operation of the flows that mutate the session map. -/
inductive DirectoryOp where
  | addOp (s : SessionHandle)
  | removeOp (s : SessionHandle)
  | clearOp
  | refreshOp (snapshot : List SessionHandle)
deriving Repr, DecidableEq

/-- Applies one directory operation: add, removeSession, clear, or a
refresh (clear followed by getAndAddSessions on a snapshot). -/
def applyOp (cfg : List (ℕ × List String)) (wst : WinState) (wenv : WinEnv)
    (sm : SessionMapState) : DirectoryOp → SessionMapState
  | DirectoryOp.addOp s => { sm with m := addSession sm.m s }
  | DirectoryOp.removeOp s => removeSession sm s
  | DirectoryOp.clearOp => { sm with m := [] }
  | DirectoryOp.refreshOp snapshot =>
      getAndAddSessions cfg wst wenv { sm with m := [] } snapshot

/-- C9: after any sequence of directory operations from a state satisfying
the invariant, every key present in the map still holds a nonempty session
list: removal deletes a key whose list would become empty, and keys are
only created together with a first session. -/
theorem directoryNonemptyInvariant (cfg : List (ℕ × List String)) (wst : WinState)
    (wenv : WinEnv) : ∀ (ops : List DirectoryOp) (sm : SessionMapState),
    mapInvariant sm.m →
    mapInvariant ((ops.foldl (applyOp cfg wst wenv) sm).m) := by
  intro ops
  induction ops with
  | nil => intro sm h; simpa using h
  | cons op rest ih =>
    intro sm h
    rw [List.foldl_cons]
    apply ih
    cases op with
    | addOp s => exact addSession_invariant _ _ h
    | removeOp s => exact removeSession_invariant _ _ h
    | clearOp =>
      intro p hp
      simp [applyOp] at hp
    | refreshOp snapshot =>
      exact getAndAddSessions_invariant _ _ _ _ _ (by intro p hp; simp at hp)

/-- C9 witness: a concrete operation sequence from the empty directory. -/
theorem directoryNonemptyInvariant_witness :
    mapInvariant (([DirectoryOp.addOp ⟨"a", 0, true⟩, DirectoryOp.addOp ⟨"a", 1, true⟩,
        DirectoryOp.removeOp ⟨"a", 0, true⟩, DirectoryOp.refreshOp [⟨"b", 1, true⟩],
        DirectoryOp.clearOp].foldl
      (applyOp [] ⟨[], 0⟩ ⟨0, false, false, none⟩) ⟨[], [], false⟩).m) :=
  directoryNonemptyInvariant [] ⟨[], 0⟩ ⟨0, false, false, none⟩
    [DirectoryOp.addOp ⟨"a", 0, true⟩, DirectoryOp.addOp ⟨"a", 1, true⟩,
      DirectoryOp.removeOp ⟨"a", 0, true⟩, DirectoryOp.refreshOp [⟨"b", 1, true⟩],
      DirectoryOp.clearOp] ⟨[], [], false⟩
    (fun p hp => absurd hp (List.not_mem_nil p))

/-! ## Fullscreen special target resolution -/

/-- C8 counterexample: within the 350 ms internal cooldown the window query
returns the cached previous result before the fullscreen check runs, so a
resolution of the current-fullscreen-window target made shortly after a
previous resolution returns a non-empty result although the foreground
window is not fullscreen. -/
theorem fullscreenCooldownStale :
    (getCurrentWindowProcessNames ⟨["chrome.exe"], 0⟩
        ⟨100, false, false, some ["game.exe"]⟩ true).names = ["chrome.exe"]
    ∧ (getCurrentWindowProcessNames ⟨["chrome.exe"], 0⟩
        ⟨100, false, false, some ["game.exe"]⟩ true).names ≠ []
    ∧ resolveTarget ⟨[], [], false⟩ ⟨["chrome.exe"], 0⟩
        ⟨100, false, false, some ["game.exe"]⟩ "deej.current.fullscreen"
        = ["chrome.exe"] := by
  decide

/-- C8 (amended): when the internal cooldown has elapsed, querying with the
fullscreen check against a non-fullscreen foreground window returns the
empty result without resolving any process names and without error; but
within the cooldown the cached previous result is returned unchanged,
regardless of the fullscreen state. -/
theorem fullscreenNegativeEmpty (st : WinState) (env : WinEnv)
    (hfs : env.foregroundFullscreen = false) :
    (st.lastGetCurrentWindowCall + getCurrentWindowInternalCooldown ≤ env.now →
      (getCurrentWindowProcessNames st env true).names = []
      ∧ (getCurrentWindowProcessNames st env true).resolvedNames = false
      ∧ (getCurrentWindowProcessNames st env true).isErr = false)
    ∧ (env.now < st.lastGetCurrentWindowCall + getCurrentWindowInternalCooldown →
      (getCurrentWindowProcessNames st env true).names = st.lastGetCurrentWindowResult
      ∧ (getCurrentWindowProcessNames st env true).resolvedNames = false) := by
  constructor
  · intro hcool
    unfold getCurrentWindowProcessNames
    rw [if_neg (by omega)]
    rw [if_pos (by simp [hfs])]
    exact ⟨rfl, rfl, rfl⟩
  · intro hcool
    unfold getCurrentWindowProcessNames
    rw [if_pos hcool]
    exact ⟨rfl, rfl⟩

/-- C8 witness: the amended behavior at a concrete state whose last call is
long past, with a non-fullscreen foreground window. -/
theorem fullscreenNegativeEmpty_witness :
    (getCurrentWindowProcessNames ⟨["x.exe"], 0⟩ ⟨1000, false, false, some ["y.exe"]⟩
        true).names = []
    ∧ (getCurrentWindowProcessNames ⟨["x.exe"], 0⟩ ⟨1000, false, false, some ["y.exe"]⟩
        true).resolvedNames = false
    ∧ (getCurrentWindowProcessNames ⟨["x.exe"], 0⟩ ⟨1000, false, false, some ["y.exe"]⟩
        true).isErr = false :=
  (fullscreenNegativeEmpty ⟨["x.exe"], 0⟩ ⟨1000, false, false, some ["y.exe"]⟩ rfl).1
    (by decide)

/-! ## Unmapped session tracking -/

/-- A config is lowercase-consistent when no target acquires the special
marker only through lowercasing (for instance DEEJ.current, on which the Go
code would index into an empty resolution result). -/
def configLowerConsistent (cfg : List (ℕ × List String)) : Prop :=
  ∀ p ∈ cfg, ∀ t ∈ p.2, targetHasSpecialTransform (strToLower t) = true →
    targetHasSpecialTransform t = true

theorem resolveTarget_nonspecial (sm : SessionMapState) (wst : WinState) (wenv : WinEnv)
    (t : String) (h : targetHasSpecialTransform (strToLower t) = false) :
    resolveTarget sm wst wenv t = [strToLower t] := by
  unfold resolveTarget
  dsimp only
  rw [if_neg (by simp [h])]

theorem any_congr_mem {α : Type} (l : List α) (f g : α → Bool)
    (h : ∀ a ∈ l, f a = g a) : l.any f = l.any g := by
  induction l with
  | nil => rfl
  | cons x xs ih =>
    simp only [List.any_cons]
    rw [h x (by simp), ih (fun a ha => h a (by simp [ha]))]

/-- The mapped test as a function of the key alone. -/
def sessionMappedPure (cfg : List (ℕ × List String)) (key : String) : Bool :=
  if [masterSessionName, systemSessionName, inputSessionName].contains key then true
  else if deviceSessionKeyMatch key then true
  else
    cfg.any (fun p => p.2.any (fun target =>
      if targetHasSpecialTransform target then false
      else strToLower target == key))

/-- For a lowercase-consistent config, sessionMapped depends only on the
session key (never on the map state or the window collaborators, which are
reached only through special transforms that the scan skips). -/
theorem sessionMapped_eq_pure (cfg : List (ℕ × List String)) (sm : SessionMapState)
    (wst : WinState) (wenv : WinEnv) (s : SessionHandle)
    (hc : configLowerConsistent cfg) :
    sessionMapped cfg sm wst wenv s = sessionMappedPure cfg s.key := by
  unfold sessionMapped sessionMappedPure
  by_cases hA : ([masterSessionName, systemSessionName, inputSessionName].contains s.key)
      = true
  · rw [if_pos hA, if_pos hA]
  · rw [if_neg hA, if_neg hA]
    by_cases hB : deviceSessionKeyMatch s.key = true
    · rw [if_pos hB, if_pos hB]
    · rw [if_neg hB, if_neg hB]
      apply any_congr_mem
      intro p hp
      apply any_congr_mem
      intro t ht
      by_cases hsp : targetHasSpecialTransform t = true
      · rw [if_pos hsp, if_pos hsp]
      · rw [if_neg hsp, if_neg hsp]
        have hlow : targetHasSpecialTransform (strToLower t) = false := by
          cases hl : targetHasSpecialTransform (strToLower t) with
          | false => rfl
          | true => exact absurd (hc p hp t ht hl) hsp
        rw [resolveTarget_nonspecial sm wst wenv t hlow]
        rfl

/-- The unmapped side table produced by getAndAddSessions is exactly the
snapshot filtered to the sessions whose key the config does not map. -/
theorem getAndAdd_fold_unmapped (cfg : List (ℕ × List String)) (wst : WinState)
    (wenv : WinEnv) (hc : configLowerConsistent cfg) :
    ∀ (sessions : List SessionHandle) (acc : SessionMapState),
    ((sessions.foldl (fun acc session =>
        let acc2 := { acc with m := addSession acc.m session }
        if !(sessionMapped cfg acc2 wst wenv session) then
          { acc2 with unmappedSessions := acc2.unmappedSessions ++ [session] }
        else acc2) acc).unmappedSessions)
      = acc.unmappedSessions
        ++ sessions.filter (fun s => !(sessionMappedPure cfg s.key)) := by
  intro sessions
  induction sessions with
  | nil => intro acc; simp
  | cons s rest ih =>
    intro acc
    rw [List.foldl_cons]
    dsimp only
    rw [sessionMapped_eq_pure cfg _ wst wenv s hc]
    cases hmap : sessionMappedPure cfg s.key with
    | true =>
      rw [if_neg (by simp [hmap])]
      rw [ih]
      simp [List.filter_cons, hmap]
    | false =>
      rw [if_pos (by simp [hmap])]
      rw [ih]
      simp [List.filter_cons, hmap]

theorem getAndAddSessions_unmapped (cfg : List (ℕ × List String)) (wst : WinState)
    (wenv : WinEnv) (sm : SessionMapState) (sessions : List SessionHandle)
    (hc : configLowerConsistent cfg) :
    (getAndAddSessions cfg wst wenv sm sessions).unmappedSessions
      = sessions.filter (fun s => !(sessionMappedPure cfg s.key)) := by
  unfold getAndAddSessions
  rw [getAndAdd_fold_unmapped cfg wst wenv hc sessions]
  simp

/-- Resolution of the all-unmapped special target reads the keys of the
unmapped side table. -/
theorem resolveUnmapped (sm : SessionMapState) (wst : WinState) (wenv : WinEnv) :
    resolveTarget sm wst wenv "deej.unmapped" = sm.unmappedSessions.map SessionHandle.key :=
  rfl

/-- C6: a live session whose key is not reserved, does not match the device
pattern, and equals no resolved non-special configured target appears in the
resolution of deej.unmapped after a refresh; and once the configuration
gains a slider target equal to that key, the session key no longer appears
in the resolution after the next refresh. -/
theorem unmappedTracking (cfg cfg2 : List (ℕ × List String)) (wst : WinState)
    (wenv : WinEnv) (sm : SessionMapState) (sessions : List SessionHandle)
    (s : SessionHandle)
    (hc : configLowerConsistent cfg) (hc2 : configLowerConsistent cfg2)
    (hmem : s ∈ sessions)
    (hres : ([masterSessionName, systemSessionName, inputSessionName].contains s.key)
        = false)
    (hdev : deviceSessionKeyMatch s.key = false)
    (hnomatch : ∀ p ∈ cfg, ∀ t ∈ p.2, targetHasSpecialTransform t = false →
        ¬(strToLower t == s.key) = true)
    (hmatch2 : ∃ p, p ∈ cfg2 ∧ ∃ t, t ∈ p.2 ∧ targetHasSpecialTransform t = false
        ∧ (strToLower t == s.key) = true) :
    s.key ∈ resolveTarget (getAndAddSessions cfg wst wenv sm sessions) wst wenv
        "deej.unmapped"
    ∧ s.key ∉ resolveTarget (getAndAddSessions cfg2 wst wenv sm sessions) wst wenv
        "deej.unmapped" := by
  constructor
  · rw [resolveUnmapped, getAndAddSessions_unmapped cfg wst wenv sm sessions hc]
    have hpure : sessionMappedPure cfg s.key = false := by
      unfold sessionMappedPure
      rw [if_neg (by rw [hres]; simp), if_neg (by rw [hdev]; simp)]
      cases hany : cfg.any (fun p => p.2.any (fun target =>
          if targetHasSpecialTransform target then false
          else strToLower target == s.key)) with
      | false => rfl
      | true =>
        exfalso
        simp only [List.any_eq_true] at hany
        obtain ⟨p, hp, t, ht, hbody⟩ := hany
        by_cases hsp : targetHasSpecialTransform t = true
        · rw [if_pos hsp] at hbody
          exact Bool.noConfusion hbody
        · rw [if_neg hsp] at hbody
          exact hnomatch p hp t ht (by simpa using hsp) hbody
    refine List.mem_map.mpr ⟨s, ?_, rfl⟩
    refine List.mem_filter.mpr ⟨hmem, ?_⟩
    simp [hpure]
  · rw [resolveUnmapped, getAndAddSessions_unmapped cfg2 wst wenv sm sessions hc2]
    intro hin
    obtain ⟨x, hx, hxkey⟩ := List.mem_map.mp hin
    have hxfil := List.mem_filter.mp hx
    have hxpure : sessionMappedPure cfg2 x.key = true := by
      obtain ⟨p, hp, t, ht, hsp, hteq⟩ := hmatch2
      unfold sessionMappedPure
      by_cases hA : ([masterSessionName, systemSessionName, inputSessionName].contains
          x.key) = true
      · rw [if_pos hA]
      · rw [if_neg hA]
        by_cases hB : deviceSessionKeyMatch x.key = true
        · rw [if_pos hB]
        · rw [if_neg hB]
          simp only [List.any_eq_true]
          refine ⟨p, hp, t, ht, ?_⟩
          rw [if_neg (by simp [hsp])]
          rw [hxkey]
          exact hteq
    rw [hxpure] at hxfil
    simpa using hxfil.2

/-- C6 witness: a notepad.exe session among two snapshot sessions: unmapped
under a config mapping only chrome.exe, mapped once a slider also targets
notepad.exe. -/
theorem unmappedTracking_witness :
    "notepad.exe" ∈ resolveTarget
        (getAndAddSessions [(0, ["chrome.exe"])] ⟨[], 0⟩ ⟨0, false, false, none⟩
          ⟨[], [], false⟩ [⟨"chrome.exe", 0, true⟩, ⟨"notepad.exe", 0, true⟩])
        ⟨[], 0⟩ ⟨0, false, false, none⟩ "deej.unmapped"
    ∧ "notepad.exe" ∉ resolveTarget
        (getAndAddSessions [(0, ["chrome.exe", "Notepad.exe"])] ⟨[], 0⟩
          ⟨0, false, false, none⟩ ⟨[], [], false⟩
          [⟨"chrome.exe", 0, true⟩, ⟨"notepad.exe", 0, true⟩])
        ⟨[], 0⟩ ⟨0, false, false, none⟩ "deej.unmapped" := by
  have h := unmappedTracking [(0, ["chrome.exe"])] [(0, ["chrome.exe", "Notepad.exe"])]
    ⟨[], 0⟩ ⟨0, false, false, none⟩ ⟨[], [], false⟩
    [⟨"chrome.exe", 0, true⟩, ⟨"notepad.exe", 0, true⟩] ⟨"notepad.exe", 0, true⟩
    (by unfold configLowerConsistent; decide)
    (by unfold configLowerConsistent; decide)
    (by decide) (by decide) (by decide)
    (by decide)
    ⟨(0, ["chrome.exe", "Notepad.exe"]), by decide, "Notepad.exe", by decide, by decide,
      by decide⟩
  exact h

end Deej
